import Mathlib

/-!
# Formal model of the Triangle-Assignment geometry engine

This file gives a shallow embedding of the geometry module of the
Triangle-Assignment repository (the functions `clamp`, `distance`, `toDeg`,
`doubleSignedArea`, `isCollinear`, `midpoint` and `triangleData`) and proves
the specified properties of `triangleData`.

Two embeddings are used:

* `Geometry.triangleData` models IEEE doubles by exact real numbers.  This is
  the idealisation for finite inputs: every real number is finite, so the
  `isFinite` guard of the source is the constantly-true predicate here.
* `Geometry.triangleDataE` (further below) models the full IEEE double value
  space including `NaN` and the two infinities, with the propagation rules of
  JavaScript arithmetic, so that the non-finite branch of the source and the
  behaviour of comparisons on `NaN` can be reasoned about.
-/

namespace Geometry

/-- A 2D point in canvas / screen coordinates
(source: `export type Pt = { x: number; y: number }`). -/
structure Pt where
  x : ℝ
  y : ℝ

/-- Triangle side lengths mapped to the opposite vertex (a ↔ A, etc.)
(source: `export type TriangleSides = { a: number; b: number; c: number }`). -/
structure TriangleSides where
  a : ℝ
  b : ℝ
  c : ℝ

/-- Triangle internal angles (in degrees), named by vertex
(source: `export type TriangleAngles = { A: number; B: number; C: number }`). -/
structure TriangleAngles where
  A : ℝ
  B : ℝ
  C : ℝ

/-- Midpoints of each side, keyed like the sides (source: the `mids` field of
`TriangleData`). -/
structure Mids where
  a : Pt
  b : Pt
  c : Pt

/-- Metadata returned from triangle analysis (source: `interface TriangleData`).
The optional fields of the TypeScript interface become `Option` fields. -/
structure TriangleData where
  valid : Bool
  reasonIfInvalid : Option String := none
  sides : Option TriangleSides := none
  angles : Option TriangleAngles := none
  perimeter : Option ℝ := none
  area : Option ℝ := none
  mids : Option Mids := none

/-- Small epsilon to guard against floating-point issues
(source: `const EPS = 1e-9`). -/
def EPS : ℝ := 1e-9

/-- Clamp a number into [min, max]
(source: `clamp(v, min, max) = Math.max(min, Math.min(max, v))`;
the parameters named `min`/`max` in the source are `lo`/`hi` here). -/
def clamp (v lo hi : ℝ) : ℝ := max lo (min hi v)

/-- Euclidean distance between two points
(source: `distance(p, q) = Math.hypot(q.x - p.x, q.y - p.y)`;
`Math.hypot` is the square root of the sum of squares). -/
noncomputable def distance (p q : Pt) : ℝ :=
  Real.sqrt ((q.x - p.x) ^ 2 + (q.y - p.y) ^ 2)

/-- Convert radians to degrees (source: `toDeg(rad) = (rad * 180) / Math.PI`). -/
noncomputable def toDeg (rad : ℝ) : ℝ := rad * 180 / Real.pi

/-- Signed area *2 (shoelace). Positive if A->B->C is CCW
(source: `doubleSignedArea`). -/
def doubleSignedArea (A B C : Pt) : ℝ :=
  A.x * (B.y - C.y) + B.x * (C.y - A.y) + C.x * (A.y - B.y)

/-- True if the three points are (almost) collinear (source: `isCollinear`). -/
def isCollinear (A B C : Pt) : Prop :=
  |doubleSignedArea A B C| ≤ EPS

/-- Midpoint helper (source: `midpoint(P, Q)`). -/
noncomputable def midpoint (P Q : Pt) : Pt :=
  { x := (P.x + Q.x) / 2, y := (P.y + Q.y) / 2 }

/-- The coincidence test `triangleData` applies to one pair of points:
both coordinate differences are within `EPS` of zero
(source, lines 183–185: `Math.abs(A.x - B.x) < EPS && Math.abs(A.y - B.y) < EPS`
and the two analogous conjunctions). -/
def coincident (p q : Pt) : Prop :=
  |p.x - q.x| < EPS ∧ |p.y - q.y| < EPS

/-- The source's `isFinite` on the exact-real idealisation of doubles: every real number is
finite.  The branch where the source's `isFinite` check fails is modelled
faithfully in the extended embedding `triangleDataE` below, where non-finite
values exist. -/
def isFinite (_ : ℝ) : Prop := True

open scoped Classical in
/-- Compute core triangle metrics from 3 points
(source: `export function triangleData(points: [Pt, Pt, Pt]): TriangleData`),
translated branch for branch:
coincidence check, side lengths, finiteness check, unsigned shoelace area and
degeneracy check, Law of Cosines with clamped `acos` arguments, perimeter and
midpoints. -/
noncomputable def triangleData (points : Pt × Pt × Pt) : TriangleData :=
  let A := points.1
  let B := points.2.1
  let C := points.2.2
  if coincident A B ∨ coincident A C ∨ coincident B C then
    { valid := false, reasonIfInvalid := some "Two or more points coincide." }
  else
    let a := distance B C
    let b := distance A C
    let c := distance A B
    if ¬ isFinite a ∨ ¬ isFinite b ∨ ¬ isFinite c then
      { valid := false, reasonIfInvalid := some "Non-finite side length detected." }
    else
      let area2 := |doubleSignedArea A B C| / 2
      if area2 ≤ EPS then
        { valid := false, reasonIfInvalid := some "Degenerate (collinear) triangle." }
      else
        let cosA := clamp ((b * b + c * c - a * a) / (2 * b * c)) (-1) 1
        let cosB := clamp ((a * a + c * c - b * b) / (2 * a * c)) (-1) 1
        let cosC := clamp ((a * a + b * b - c * c) / (2 * a * b)) (-1) 1
        let Adeg := toDeg (Real.arccos cosA)
        let Bdeg := toDeg (Real.arccos cosB)
        let Cdeg := toDeg (Real.arccos cosC)
        let perimeter := a + b + c
        let mids : Mids := { a := midpoint B C, b := midpoint A C, c := midpoint A B }
        { valid := true,
          sides := some { a := a, b := b, c := c },
          angles := some { A := Adeg, B := Bdeg, C := Cdeg },
          perimeter := some perimeter,
          area := some area2,
          mids := some mids }

/-! ## Basic symmetry lemmas -/

lemma coincident_comm (p q : Pt) : coincident p q ↔ coincident q p := by
  unfold coincident
  rw [abs_sub_comm p.x q.x, abs_sub_comm p.y q.y]

lemma distance_comm (p q : Pt) : distance p q = distance q p := by
  unfold distance
  congr 1
  ring

/-! ## Branch lemmas for `triangleData` -/

/-- The record `triangleData` returns on its valid branch, written out. -/
noncomputable def validResult (A B C : Pt) : TriangleData :=
  { valid := true,
    sides := some { a := distance B C, b := distance A C, c := distance A B },
    angles := some
      { A := toDeg (Real.arccos (clamp
          ((distance A C * distance A C + distance A B * distance A B -
            distance B C * distance B C) / (2 * distance A C * distance A B)) (-1) 1)),
        B := toDeg (Real.arccos (clamp
          ((distance B C * distance B C + distance A B * distance A B -
            distance A C * distance A C) / (2 * distance B C * distance A B)) (-1) 1)),
        C := toDeg (Real.arccos (clamp
          ((distance B C * distance B C + distance A C * distance A C -
            distance A B * distance A B) / (2 * distance B C * distance A C)) (-1) 1)) },
    perimeter := some (distance B C + distance A C + distance A B),
    area := some (|doubleSignedArea A B C| / 2),
    mids := some { a := midpoint B C, b := midpoint A C, c := midpoint A B } }

lemma triangleData_coincident {A B C : Pt}
    (h : coincident A B ∨ coincident A C ∨ coincident B C) :
    triangleData (A, B, C) =
      { valid := false, reasonIfInvalid := some "Two or more points coincide." } := by
  simp only [triangleData]
  rw [if_pos h]

lemma triangleData_degenerate {A B C : Pt}
    (h1 : ¬ (coincident A B ∨ coincident A C ∨ coincident B C))
    (h2 : |doubleSignedArea A B C| / 2 ≤ EPS) :
    triangleData (A, B, C) =
      { valid := false, reasonIfInvalid := some "Degenerate (collinear) triangle." } := by
  simp only [triangleData]
  rw [if_neg h1, if_neg (by simp [isFinite]), if_pos h2]

lemma triangleData_valid {A B C : Pt}
    (h1 : ¬ (coincident A B ∨ coincident A C ∨ coincident B C))
    (h2 : EPS < |doubleSignedArea A B C| / 2) :
    triangleData (A, B, C) = validResult A B C := by
  simp only [triangleData, validResult]
  rw [if_neg h1, if_neg (by simp [isFinite]), if_neg (not_le.2 h2)]

/-- Full case analysis on the result of `triangleData`. -/
lemma triangleData_cases (A B C : Pt) :
    (∃ r, triangleData (A, B, C) = { valid := false, reasonIfInvalid := some r }) ∨
      (¬ (coincident A B ∨ coincident A C ∨ coincident B C) ∧
        EPS < |doubleSignedArea A B C| / 2 ∧
        triangleData (A, B, C) = validResult A B C) := by
  by_cases h1 : coincident A B ∨ coincident A C ∨ coincident B C
  · exact Or.inl ⟨_, triangleData_coincident h1⟩
  · by_cases h2 : |doubleSignedArea A B C| / 2 ≤ EPS
    · exact Or.inl ⟨_, triangleData_degenerate h1 h2⟩
    · exact Or.inr ⟨h1, not_le.1 h2, triangleData_valid h1 (not_le.1 h2)⟩

/-- The validity criterion of `triangleData`, as a shared helper. -/
lemma valid_iff (A B C : Pt) :
    (triangleData (A, B, C)).valid = true ↔
      (¬ coincident A B ∧ ¬ coincident A C ∧ ¬ coincident B C) ∧
        EPS < |doubleSignedArea A B C| / 2 := by
  by_cases h1 : coincident A B ∨ coincident A C ∨ coincident B C
  · rw [triangleData_coincident h1]
    simp only [Bool.false_eq_true, false_iff]
    tauto
  · by_cases h2 : |doubleSignedArea A B C| / 2 ≤ EPS
    · rw [triangleData_degenerate h1 h2]
      simp only [Bool.false_eq_true, false_iff]
      exact fun h => absurd h.2 (not_lt.2 h2)
    · rw [triangleData_valid h1 (not_le.1 h2)]
      simp only [validResult, true_iff]
      exact ⟨by tauto, not_le.1 h2⟩

/-- Inversion: when the `sides` field is present, the input was classified
valid and the sides are the three Euclidean distances. -/
lemma sides_inv {A B C : Pt} {s : TriangleSides}
    (hs : (triangleData (A, B, C)).sides = some s) :
    ¬ (coincident A B ∨ coincident A C ∨ coincident B C) ∧
      EPS < |doubleSignedArea A B C| / 2 ∧
      s = { a := distance B C, b := distance A C, c := distance A B } := by
  rcases triangleData_cases A B C with ⟨r, hr⟩ | ⟨h1, h2, hv⟩
  · rw [hr] at hs
    simp at hs
  · rw [hv] at hs
    simp only [validResult, Option.some.injEq] at hs
    exact ⟨h1, h2, hs.symm⟩

/-! ## C1 -/

/-- C1: `triangleData` returns the `valid = true` variant exactly when no pair
of the three points is coincident within `EPS` (both coordinate differences
below `EPS` in absolute value) and the unsigned shoelace area strictly exceeds
`EPS`; in every other case the result is invalid. -/
theorem c1_valid_iff (A B C : Pt) :
    (triangleData (A, B, C)).valid = true ↔
      (¬ coincident A B ∧ ¬ coincident A C ∧ ¬ coincident B C) ∧
        EPS < |doubleSignedArea A B C| / 2 :=
  valid_iff A B C

/-! ## C6 -/

/-- C6: whenever `triangleData` returns a valid result, the `perimeter` field
is exactly the sum `sides.a + sides.b + sides.c` of the returned sides. -/
theorem c6_perimeter_exact (P : Pt × Pt × Pt) (s : TriangleSides) (pe : ℝ)
    (hs : (triangleData P).sides = some s)
    (hp : (triangleData P).perimeter = some pe) :
    pe = s.a + s.b + s.c := by
  obtain ⟨A, B, C⟩ := P
  rcases triangleData_cases A B C with ⟨r, hr⟩ | ⟨h1, h2, hv⟩
  · rw [hr] at hs
    simp at hs
  · rw [hv] at hs hp
    simp only [validResult, Option.some.injEq] at hs hp
    rw [← hs, ← hp]

/-! ## Concrete evaluation at the 3-4-5 right triangle -/

lemma clamp_eq_self {v : ℝ} (h1 : -1 ≤ v) (h2 : v ≤ 1) : clamp v (-1) 1 = v := by
  unfold clamp
  rw [min_eq_right h2, max_eq_right h1]

lemma toDeg_pi_div_two : toDeg (Real.pi / 2) = 90 := by
  unfold toDeg
  field_simp
  ring

lemma dist345_a : distance ⟨4, 0⟩ ⟨0, 3⟩ = 5 := by
  show Real.sqrt (((0 : ℝ) - 4) ^ 2 + ((3 : ℝ) - 0) ^ 2) = 5
  rw [show ((0 : ℝ) - 4) ^ 2 + ((3 : ℝ) - 0) ^ 2 = 5 ^ 2 by norm_num]
  exact Real.sqrt_sq (by norm_num)

lemma dist345_b : distance ⟨0, 0⟩ ⟨0, 3⟩ = 3 := by
  show Real.sqrt (((0 : ℝ) - 0) ^ 2 + ((3 : ℝ) - 0) ^ 2) = 3
  rw [show ((0 : ℝ) - 0) ^ 2 + ((3 : ℝ) - 0) ^ 2 = 3 ^ 2 by norm_num]
  exact Real.sqrt_sq (by norm_num)

lemma dist345_c : distance ⟨0, 0⟩ ⟨4, 0⟩ = 4 := by
  show Real.sqrt (((4 : ℝ) - 0) ^ 2 + ((0 : ℝ) - 0) ^ 2) = 4
  rw [show ((4 : ℝ) - 0) ^ 2 + ((0 : ℝ) - 0) ^ 2 = 4 ^ 2 by norm_num]
  exact Real.sqrt_sq (by norm_num)

/-- Full evaluation of `triangleData` on `A=(0,0)`, `B=(4,0)`, `C=(0,3)`. -/
lemma tri345 :
    triangleData (⟨0, 0⟩, ⟨4, 0⟩, ⟨0, 3⟩) =
      { valid := true,
        sides := some ⟨5, 3, 4⟩,
        angles := some ⟨90, toDeg (Real.arccos (4 / 5)), toDeg (Real.arccos (3 / 5))⟩,
        perimeter := some 12,
        area := some 6,
        mids := some ⟨⟨2, 3 / 2⟩, ⟨0, 3 / 2⟩, ⟨2, 0⟩⟩ } := by
  have h1 : ¬ (coincident (⟨0, 0⟩ : Pt) ⟨4, 0⟩ ∨ coincident (⟨0, 0⟩ : Pt) ⟨0, 3⟩ ∨
      coincident (⟨4, 0⟩ : Pt) ⟨0, 3⟩) := by
    simp only [coincident, EPS]
    norm_num
  have h2 : EPS < |doubleSignedArea ⟨0, 0⟩ ⟨4, 0⟩ ⟨0, 3⟩| / 2 := by
    simp only [doubleSignedArea, EPS]
    norm_num
  rw [triangleData_valid h1 h2]
  unfold validResult
  rw [dist345_a, dist345_b, dist345_c]
  have eA : ((3 : ℝ) * 3 + 4 * 4 - 5 * 5) / (2 * 3 * 4) = 0 := by norm_num
  have eB : ((5 : ℝ) * 5 + 4 * 4 - 3 * 3) / (2 * 5 * 4) = 4 / 5 := by norm_num
  have eC : ((5 : ℝ) * 5 + 3 * 3 - 4 * 4) / (2 * 5 * 3) = 3 / 5 := by norm_num
  rw [eA, eB, eC, clamp_eq_self (by norm_num) (by norm_num),
    clamp_eq_self (by norm_num) (by norm_num), clamp_eq_self (by norm_num) (by norm_num),
    Real.arccos_zero, toDeg_pi_div_two]
  simp only [TriangleData.mk.injEq, Option.some.injEq, TriangleSides.mk.injEq,
    TriangleAngles.mk.injEq, Mids.mk.injEq, Pt.mk.injEq, doubleSignedArea, midpoint]
  norm_num

/-! ## C7 -/

/-- C7: on `A=(0,0)`, `B=(4,0)`, `C=(0,3)` the engine returns a valid result;
its sides are `a=5, b=3, c=4` (unordered multiset `{5, 3, 4}`), the area is
exactly `6`, the perimeter is exactly `12`, and the angle at vertex `A` — the
angle opposite side `a`, the side of length `5` — is `90` degrees. -/
theorem c7_right_triangle_345 :
    (triangleData (⟨0, 0⟩, ⟨4, 0⟩, ⟨0, 3⟩)).valid = true ∧
      (triangleData (⟨0, 0⟩, ⟨4, 0⟩, ⟨0, 3⟩)).sides = some ⟨5, 3, 4⟩ ∧
      ((triangleData (⟨0, 0⟩, ⟨4, 0⟩, ⟨0, 3⟩)).sides).map
          (fun s => ({s.a, s.b, s.c} : Multiset ℝ)) = some {5, 3, 4} ∧
      (triangleData (⟨0, 0⟩, ⟨4, 0⟩, ⟨0, 3⟩)).area = some 6 ∧
      (triangleData (⟨0, 0⟩, ⟨4, 0⟩, ⟨0, 3⟩)).perimeter = some 12 ∧
      ((triangleData (⟨0, 0⟩, ⟨4, 0⟩, ⟨0, 3⟩)).angles).map TriangleAngles.A = some 90 := by
  rw [tri345]
  exact ⟨rfl, rfl, rfl, rfl, rfl, rfl⟩

/-- Witness-style companion for C6 at the 3-4-5 triangle, via
`c6_perimeter_exact`. -/
theorem c6_perimeter_exact_witness :
    (triangleData (⟨0, 0⟩, ⟨4, 0⟩, ⟨0, 3⟩)).sides = some ⟨5, 3, 4⟩ ∧
      (triangleData (⟨0, 0⟩, ⟨4, 0⟩, ⟨0, 3⟩)).perimeter = some 12 ∧
      (12 : ℝ) = 5 + 3 + 4 := by
  have hs : (triangleData (⟨0, 0⟩, ⟨4, 0⟩, ⟨0, 3⟩)).sides = some ⟨5, 3, 4⟩ := by rw [tri345]
  have hp : (triangleData (⟨0, 0⟩, ⟨4, 0⟩, ⟨0, 3⟩)).perimeter = some 12 := by rw [tri345]
  exact ⟨hs, hp, c6_perimeter_exact _ _ _ hs hp⟩

/-! ## C9 -/

/-- C9: `triangleData` is deterministic — identical inputs give identical
outputs.  (Freedom from side effects holds by construction of the pure model:
the source function reads and writes no state outside its locals.) -/
theorem c9_deterministic (p q : Pt × Pt × Pt) (h : p = q) :
    triangleData p = triangleData q :=
  congrArg triangleData h

/-- Witness for C9 at a concrete input. -/
theorem c9_deterministic_witness :
    ((⟨0, 0⟩, ⟨4, 0⟩, ⟨0, 3⟩) : Pt × Pt × Pt) = (⟨0, 0⟩, ⟨4, 0⟩, ⟨0, 3⟩) ∧
      triangleData (⟨0, 0⟩, ⟨4, 0⟩, ⟨0, 3⟩) = triangleData (⟨0, 0⟩, ⟨4, 0⟩, ⟨0, 3⟩) :=
  ⟨rfl, c9_deterministic _ _ rfl⟩

/-! ## C8: transposition invariance -/

/-- The unordered multiset of side lengths of a result, when present. -/
def sideMultiset (t : TriangleData) : Option (Multiset ℝ) :=
  t.sides.map fun s => ({s.a, s.b, s.c} : Multiset ℝ)

/-- The unordered multiset of angle values of a result, when present. -/
def angleMultiset (t : TriangleData) : Option (Multiset ℝ) :=
  t.angles.map fun g => ({g.A, g.B, g.C} : Multiset ℝ)

/-- Label-insensitive observational equality of two results: same validity,
same unordered side lengths and angle values, same area and perimeter. -/
def obsEq (t u : TriangleData) : Prop :=
  t.valid = u.valid ∧ sideMultiset t = sideMultiset u ∧
    angleMultiset t = angleMultiset u ∧ t.area = u.area ∧ t.perimeter = u.perimeter

lemma obsEq_rfl (t : TriangleData) : obsEq t t :=
  ⟨rfl, rfl, rfl, rfl, rfl⟩

lemma ms_swap12 (x y z : ℝ) : ({x, y, z} : Multiset ℝ) = {y, x, z} :=
  Multiset.cons_swap x y {z}

lemma ms_swap23 (x y z : ℝ) : ({x, y, z} : Multiset ℝ) = {x, z, y} :=
  congrArg (x ::ₘ ·) (Multiset.cons_swap y z 0)

lemma ms_swap13 (x y z : ℝ) : ({x, y, z} : Multiset ℝ) = {z, y, x} := by
  rw [ms_swap12, ms_swap23, ms_swap12]

/-- The Law-of-Cosines angle expression only depends on the unordered pair of
adjacent sides. -/
lemma angle_expr_symm (x y z : ℝ) :
    toDeg (Real.arccos (clamp ((x * x + y * y - z * z) / (2 * x * y)) (-1) 1)) =
      toDeg (Real.arccos (clamp ((y * y + x * x - z * z) / (2 * y * x)) (-1) 1)) := by
  rw [show (x * x + y * y - z * z) / (2 * x * y) =
    (y * y + x * x - z * z) / (2 * y * x) from by ring]

lemma dsa_swapAB (A B C : Pt) : doubleSignedArea B A C = -doubleSignedArea A B C := by
  unfold doubleSignedArea
  ring

lemma dsa_swapAC (A B C : Pt) : doubleSignedArea C B A = -doubleSignedArea A B C := by
  unfold doubleSignedArea
  ring

lemma dsa_swapBC (A B C : Pt) : doubleSignedArea A C B = -doubleSignedArea A B C := by
  unfold doubleSignedArea
  ring

lemma cond_swapAB (A B C : Pt) :
    (coincident B A ∨ coincident B C ∨ coincident A C) ↔
      (coincident A B ∨ coincident A C ∨ coincident B C) := by
  rw [coincident_comm B A]
  tauto

lemma cond_swapAC (A B C : Pt) :
    (coincident C B ∨ coincident C A ∨ coincident B A) ↔
      (coincident A B ∨ coincident A C ∨ coincident B C) := by
  rw [coincident_comm C B, coincident_comm C A, coincident_comm B A]
  tauto

lemma cond_swapBC (A B C : Pt) :
    (coincident A C ∨ coincident A B ∨ coincident C B) ↔
      (coincident A B ∨ coincident A C ∨ coincident B C) := by
  rw [coincident_comm C B]
  tauto

lemma validResult_swapAB (A B C : Pt) : obsEq (validResult B A C) (validResult A B C) := by
  unfold obsEq validResult sideMultiset angleMultiset
  simp only [Option.map_some', Option.some.injEq]
  refine ⟨trivial, ?_, ?_, ?_, ?_⟩
  · rw [distance_comm B A]
    exact ms_swap12 _ _ _
  · rw [distance_comm B A,
      angle_expr_symm (distance A C) (distance B C) (distance A B)]
    exact ms_swap12 _ _ _
  · rw [dsa_swapAB, abs_neg]
  · rw [distance_comm B A]
    ring

lemma validResult_swapAC (A B C : Pt) : obsEq (validResult C B A) (validResult A B C) := by
  unfold obsEq validResult sideMultiset angleMultiset
  simp only [Option.map_some', Option.some.injEq]
  refine ⟨trivial, ?_, ?_, ?_, ?_⟩
  · rw [distance_comm B A, distance_comm C A, distance_comm C B]
    exact ms_swap13 _ _ _
  · rw [distance_comm B A, distance_comm C A, distance_comm C B,
      angle_expr_symm (distance A C) (distance B C) (distance A B),
      angle_expr_symm (distance A B) (distance B C) (distance A C),
      angle_expr_symm (distance A B) (distance A C) (distance B C)]
    exact ms_swap13 _ _ _
  · rw [dsa_swapAC, abs_neg]
  · rw [distance_comm B A, distance_comm C A, distance_comm C B]
    ring

lemma validResult_swapBC (A B C : Pt) : obsEq (validResult A C B) (validResult A B C) := by
  unfold obsEq validResult sideMultiset angleMultiset
  simp only [Option.map_some', Option.some.injEq]
  refine ⟨trivial, ?_, ?_, ?_, ?_⟩
  · rw [distance_comm C B]
    exact ms_swap23 _ _ _
  · rw [distance_comm C B,
      angle_expr_symm (distance A B) (distance A C) (distance B C)]
    exact ms_swap23 _ _ _
  · rw [dsa_swapBC, abs_neg]
  · rw [distance_comm C B]
    ring

lemma obsEq_swapAB (A B C : Pt) : obsEq (triangleData (B, A, C)) (triangleData (A, B, C)) := by
  by_cases h1 : coincident A B ∨ coincident A C ∨ coincident B C
  · rw [triangleData_coincident h1, triangleData_coincident ((cond_swapAB A B C).2 h1)]
    exact obsEq_rfl _
  · have h1' : ¬ (coincident B A ∨ coincident B C ∨ coincident A C) := fun h =>
      h1 ((cond_swapAB A B C).1 h)
    have harea : |doubleSignedArea B A C| / 2 = |doubleSignedArea A B C| / 2 := by
      rw [dsa_swapAB, abs_neg]
    by_cases h2 : |doubleSignedArea A B C| / 2 ≤ EPS
    · rw [triangleData_degenerate h1 h2, triangleData_degenerate h1' (harea ▸ h2)]
      exact obsEq_rfl _
    · rw [triangleData_valid h1 (not_le.1 h2),
        triangleData_valid h1' (harea ▸ not_le.1 h2)]
      exact validResult_swapAB A B C

lemma obsEq_swapAC (A B C : Pt) : obsEq (triangleData (C, B, A)) (triangleData (A, B, C)) := by
  by_cases h1 : coincident A B ∨ coincident A C ∨ coincident B C
  · rw [triangleData_coincident h1, triangleData_coincident ((cond_swapAC A B C).2 h1)]
    exact obsEq_rfl _
  · have h1' : ¬ (coincident C B ∨ coincident C A ∨ coincident B A) := fun h =>
      h1 ((cond_swapAC A B C).1 h)
    have harea : |doubleSignedArea C B A| / 2 = |doubleSignedArea A B C| / 2 := by
      rw [dsa_swapAC, abs_neg]
    by_cases h2 : |doubleSignedArea A B C| / 2 ≤ EPS
    · rw [triangleData_degenerate h1 h2, triangleData_degenerate h1' (harea ▸ h2)]
      exact obsEq_rfl _
    · rw [triangleData_valid h1 (not_le.1 h2),
        triangleData_valid h1' (harea ▸ not_le.1 h2)]
      exact validResult_swapAC A B C

lemma obsEq_swapBC (A B C : Pt) : obsEq (triangleData (A, C, B)) (triangleData (A, B, C)) := by
  by_cases h1 : coincident A B ∨ coincident A C ∨ coincident B C
  · rw [triangleData_coincident h1, triangleData_coincident ((cond_swapBC A B C).2 h1)]
    exact obsEq_rfl _
  · have h1' : ¬ (coincident A C ∨ coincident A B ∨ coincident C B) := fun h =>
      h1 ((cond_swapBC A B C).1 h)
    have harea : |doubleSignedArea A C B| / 2 = |doubleSignedArea A B C| / 2 := by
      rw [dsa_swapBC, abs_neg]
    by_cases h2 : |doubleSignedArea A B C| / 2 ≤ EPS
    · rw [triangleData_degenerate h1 h2, triangleData_degenerate h1' (harea ▸ h2)]
      exact obsEq_rfl _
    · rw [triangleData_valid h1 (not_le.1 h2),
        triangleData_valid h1' (harea ▸ not_le.1 h2)]
      exact validResult_swapBC A B C

/-- C8: swapping any two of the three input points preserves the validity
classification, the unordered multiset of side lengths, the unordered multiset
of angle values, and the `area` and `perimeter` fields exactly. -/
theorem c8_transposition_invariance (A B C : Pt) :
    obsEq (triangleData (B, A, C)) (triangleData (A, B, C)) ∧
      obsEq (triangleData (C, B, A)) (triangleData (A, B, C)) ∧
      obsEq (triangleData (A, C, B)) (triangleData (A, B, C)) :=
  ⟨obsEq_swapAB A B C, obsEq_swapAC A B C, obsEq_swapBC A B C⟩

/-! ## Bridge to the Euclidean plane

`toE` reads a `Pt` as a point of the Euclidean plane `EuclideanSpace ℝ (Fin 2)`;
the source's `distance` is the metric distance there, the shoelace expression
vanishes exactly on collinear configurations, and the clamped Law-of-Cosines
angle is the Euclidean angle at the vertex. -/

noncomputable def toE (p : Pt) : EuclideanSpace ℝ (Fin 2) := ![p.x, p.y]

lemma toE_apply0 (p : Pt) : toE p 0 = p.x := rfl

lemma toE_apply1 (p : Pt) : toE p 1 = p.y := rfl

lemma dist_toE (p q : Pt) : dist (toE p) (toE q) = distance p q := by
  rw [EuclideanSpace.dist_eq]
  unfold distance
  rw [Fin.sum_univ_two, toE_apply0, toE_apply0, toE_apply1, toE_apply1,
    Real.dist_eq, Real.dist_eq, sq_abs, sq_abs]
  congr 1
  ring

lemma collinear_dsa_eq_zero {A B C : Pt}
    (h : Collinear ℝ ({toE A, toE B, toE C} : Set (EuclideanSpace ℝ (Fin 2)))) :
    doubleSignedArea A B C = 0 := by
  rw [collinear_iff_exists_forall_eq_smul_vadd] at h
  obtain ⟨p₀, v, hv⟩ := h
  obtain ⟨ta, ha⟩ := hv (toE A) (by simp)
  obtain ⟨tb, hb⟩ := hv (toE B) (by simp)
  obtain ⟨tc, hc⟩ := hv (toE C) (by simp)
  have hax : A.x = ta * v 0 + p₀ 0 := by
    have := congrFun ha 0
    simpa [toE_apply0, vadd_eq_add, PiLp.add_apply, PiLp.smul_apply, smul_eq_mul] using this
  have hay : A.y = ta * v 1 + p₀ 1 := by
    have := congrFun ha 1
    simpa [toE_apply1, vadd_eq_add, PiLp.add_apply, PiLp.smul_apply, smul_eq_mul] using this
  have hbx : B.x = tb * v 0 + p₀ 0 := by
    have := congrFun hb 0
    simpa [toE_apply0, vadd_eq_add, PiLp.add_apply, PiLp.smul_apply, smul_eq_mul] using this
  have hby : B.y = tb * v 1 + p₀ 1 := by
    have := congrFun hb 1
    simpa [toE_apply1, vadd_eq_add, PiLp.add_apply, PiLp.smul_apply, smul_eq_mul] using this
  have hcx : C.x = tc * v 0 + p₀ 0 := by
    have := congrFun hc 0
    simpa [toE_apply0, vadd_eq_add, PiLp.add_apply, PiLp.smul_apply, smul_eq_mul] using this
  have hcy : C.y = tc * v 1 + p₀ 1 := by
    have := congrFun hc 1
    simpa [toE_apply1, vadd_eq_add, PiLp.add_apply, PiLp.smul_apply, smul_eq_mul] using this
  unfold doubleSignedArea
  rw [hax, hay, hbx, hby, hcx, hcy]
  ring

/-- Any collinear set containing the three mapped points forces a vanishing
shoelace expression. -/
lemma dsa_eq_zero_of_collinear_mem {A B C : Pt} {s : Set (EuclideanSpace ℝ (Fin 2))}
    (hA : toE A ∈ s) (hB : toE B ∈ s) (hC : toE C ∈ s) (h : Collinear ℝ s) :
    doubleSignedArea A B C = 0 := by
  apply collinear_dsa_eq_zero
  apply h.subset
  intro x hx
  simp only [Set.mem_insert_iff, Set.mem_singleton_iff] at hx
  rcases hx with rfl | rfl | rfl <;> assumption

lemma dsa_ne_zero_distinct {A B C : Pt} (h : doubleSignedArea A B C ≠ 0) :
    toE A ≠ toE B ∧ toE A ≠ toE C ∧ toE B ≠ toE C := by
  refine ⟨?_, ?_, ?_⟩ <;> intro he <;> apply h
  · have hx : A.x = B.x := by
      have := congrFun he 0
      simpa [toE_apply0] using this
    have hy : A.y = B.y := by
      have := congrFun he 1
      simpa [toE_apply1] using this
    unfold doubleSignedArea
    rw [hx, hy]
    ring
  · have hx : A.x = C.x := by
      have := congrFun he 0
      simpa [toE_apply0] using this
    have hy : A.y = C.y := by
      have := congrFun he 1
      simpa [toE_apply1] using this
    unfold doubleSignedArea
    rw [hx, hy]
    ring
  · have hx : B.x = C.x := by
      have := congrFun he 0
      simpa [toE_apply0] using this
    have hy : B.y = C.y := by
      have := congrFun he 1
      simpa [toE_apply1] using this
    unfold doubleSignedArea
    rw [hx, hy]
    ring

lemma distance_pos {p q : Pt} (h : toE p ≠ toE q) : 0 < distance p q := by
  rw [← dist_toE]
  exact dist_pos.2 h

/-- The clamped Law-of-Cosines expression at vertex `A` recovers the Euclidean
angle at `toE A`. -/
lemma arccos_cos_angle (A B C : Pt) (hb : distance A C ≠ 0) (hc : distance A B ≠ 0) :
    Real.arccos (clamp ((distance A C * distance A C + distance A B * distance A B -
        distance B C * distance B C) / (2 * distance A C * distance A B)) (-1) 1) =
      EuclideanGeometry.angle (toE B) (toE A) (toE C) := by
  set θ := EuclideanGeometry.angle (toE B) (toE A) (toE C) with hθ
  have hlaw := EuclideanGeometry.law_cos (toE B) (toE A) (toE C)
  rw [dist_toE, dist_toE, dist_toE, distance_comm B A, distance_comm C A] at hlaw
  have hcos : (distance A C * distance A C + distance A B * distance A B -
      distance B C * distance B C) / (2 * distance A C * distance A B) = Real.cos θ := by
    rw [div_eq_iff (mul_ne_zero (mul_ne_zero two_ne_zero hb) hc)]
    linear_combination -hlaw
  rw [hcos, clamp_eq_self (Real.neg_one_le_cos θ) (Real.cos_le_one θ),
    Real.arccos_cos (EuclideanGeometry.angle_nonneg _ _ _) (EuclideanGeometry.angle_le_pi _ _ _)]

/-- A non-vanishing shoelace expression keeps every vertex angle strictly
inside `(0, π)`. -/
lemma angle_pos_lt_pi {A B C : Pt} (h : doubleSignedArea A B C ≠ 0) :
    0 < EuclideanGeometry.angle (toE B) (toE A) (toE C) ∧
      EuclideanGeometry.angle (toE B) (toE A) (toE C) < Real.pi := by
  constructor
  · rcases (EuclideanGeometry.angle_nonneg (toE B) (toE A) (toE C)).lt_or_eq with hlt | heq
    · exact hlt
    · exfalso
      rcases EuclideanGeometry.angle_eq_zero_iff_ne_and_wbtw.1 heq.symm with
        ⟨_, hw⟩ | ⟨_, hw⟩
      · exact h (dsa_eq_zero_of_collinear_mem (by simp) (by simp) (by simp) hw.collinear)
      · exact h (dsa_eq_zero_of_collinear_mem (by simp) (by simp) (by simp) hw.collinear)
  · rcases (EuclideanGeometry.angle_le_pi (toE B) (toE A) (toE C)).lt_or_eq with hlt | heq
    · exact hlt
    · exfalso
      have hs := EuclideanGeometry.angle_eq_pi_iff_sbtw.1 heq
      exact h (dsa_eq_zero_of_collinear_mem (by simp) (by simp) (by simp) hs.wbtw.collinear)

/-! ## Angle facts on the valid branch -/

lemma toDeg_pos {x : ℝ} (hx : 0 < x) : 0 < toDeg x := by
  unfold toDeg
  positivity

lemma toDeg_lt_180 {x : ℝ} (hx : x < Real.pi) : toDeg x < 180 := by
  unfold toDeg
  rw [div_lt_iff₀ Real.pi_pos]
  nlinarith [Real.pi_pos]

/-- The three angle fields of `validResult` are the degree versions of the
Euclidean angles at the three vertices. -/
lemma validResult_angles_eq {A B C : Pt} (h : doubleSignedArea A B C ≠ 0) :
    (validResult A B C).angles = some
      { A := toDeg (EuclideanGeometry.angle (toE B) (toE A) (toE C)),
        B := toDeg (EuclideanGeometry.angle (toE A) (toE B) (toE C)),
        C := toDeg (EuclideanGeometry.angle (toE A) (toE C) (toE B)) } := by
  obtain ⟨hab, hac, hbc⟩ := dsa_ne_zero_distinct h
  have dab : distance A B ≠ 0 := (distance_pos hab).ne'
  have dac : distance A C ≠ 0 := (distance_pos hac).ne'
  have dbc : distance B C ≠ 0 := (distance_pos hbc).ne'
  have dba : distance B A ≠ 0 := by rwa [distance_comm]
  have dca : distance C A ≠ 0 := by rwa [distance_comm]
  have dcb : distance C B ≠ 0 := by rwa [distance_comm]
  have hA := arccos_cos_angle A B C dac dab
  have hB := arccos_cos_angle B A C dbc dba
  rw [distance_comm B A] at hB
  have hC := arccos_cos_angle C A B dcb dca
  rw [distance_comm C B, distance_comm C A] at hC
  simp only [validResult, Option.some.injEq, TriangleAngles.mk.injEq]
  exact ⟨congrArg toDeg hA, congrArg toDeg hB, congrArg toDeg hC⟩

/-- Sum of the three Euclidean vertex angles of a non-degenerate configuration. -/
lemma angle_sum_eq_pi {A B C : Pt} (h : doubleSignedArea A B C ≠ 0) :
    EuclideanGeometry.angle (toE B) (toE A) (toE C) +
      EuclideanGeometry.angle (toE A) (toE B) (toE C) +
      EuclideanGeometry.angle (toE A) (toE C) (toE B) = Real.pi := by
  obtain ⟨hab, hac, _⟩ := dsa_ne_zero_distinct h
  have hsum := EuclideanGeometry.angle_add_angle_add_angle_eq_pi hab.symm hac.symm
  rw [EuclideanGeometry.angle_comm (toE B) (toE C) (toE A),
    EuclideanGeometry.angle_comm (toE C) (toE A) (toE B)] at hsum
  linarith [hsum]

lemma dsa_rotate (A B C : Pt) : doubleSignedArea C A B = doubleSignedArea A B C := by
  unfold doubleSignedArea
  ring

/-! ## C3 -/

/-- C3: on every input whose three points are pairwise non-coincident beyond
`EPS` and whose unsigned shoelace area exceeds `EPS`, `triangleData` returns a
valid result whose three angles are each strictly between `0` and `180`
degrees and sum to `180` within `1e-6`. -/
theorem c3_angle_bounds_and_sum (A B C : Pt)
    (h1 : ¬ coincident A B ∧ ¬ coincident A C ∧ ¬ coincident B C)
    (h2 : EPS < |doubleSignedArea A B C| / 2) :
    (triangleData (A, B, C)).valid = true ∧
      ∃ g, (triangleData (A, B, C)).angles = some g ∧
        (0 < g.A ∧ g.A < 180) ∧ (0 < g.B ∧ g.B < 180) ∧ (0 < g.C ∧ g.C < 180) ∧
        |g.A + g.B + g.C - 180| ≤ 1e-6 := by
  have h1' : ¬ (coincident A B ∨ coincident A C ∨ coincident B C) := by tauto
  have hdsa : doubleSignedArea A B C ≠ 0 := by
    intro h0
    rw [h0] at h2
    norm_num [EPS] at h2
  have hdsaBA : doubleSignedArea B A C ≠ 0 := by
    rw [dsa_swapAB]
    exact neg_ne_zero.2 hdsa
  have hdsaCA : doubleSignedArea C A B ≠ 0 := by
    rw [dsa_rotate]
    exact hdsa
  obtain ⟨hA0, hApi⟩ := angle_pos_lt_pi hdsa
  obtain ⟨hB0, hBpi⟩ := angle_pos_lt_pi hdsaBA
  obtain ⟨hC0, hCpi⟩ := angle_pos_lt_pi hdsaCA
  rw [triangleData_valid h1' h2]
  refine ⟨rfl, ?_⟩
  refine ⟨_, validResult_angles_eq hdsa, ?_, ?_, ?_, ?_⟩
  · exact ⟨toDeg_pos hA0, toDeg_lt_180 hApi⟩
  · exact ⟨toDeg_pos hB0, toDeg_lt_180 hBpi⟩
  · exact ⟨toDeg_pos hC0, toDeg_lt_180 hCpi⟩
  · have hsum := angle_sum_eq_pi hdsa
    have hdeg : toDeg (EuclideanGeometry.angle (toE B) (toE A) (toE C)) +
        toDeg (EuclideanGeometry.angle (toE A) (toE B) (toE C)) +
        toDeg (EuclideanGeometry.angle (toE A) (toE C) (toE B)) = 180 := by
      unfold toDeg
      rw [div_add_div_same, div_add_div_same, ← add_mul, ← add_mul, hsum]
      field_simp
    dsimp only
    rw [hdeg]
    norm_num

/-- Witness for C3 at the 3-4-5 right triangle. -/
theorem c3_angle_bounds_and_sum_witness :
    ((¬ coincident ⟨0, 0⟩ ⟨4, 0⟩ ∧ ¬ coincident ⟨0, 0⟩ ⟨0, 3⟩ ∧
        ¬ coincident ⟨4, 0⟩ ⟨0, 3⟩) ∧
      EPS < |doubleSignedArea ⟨0, 0⟩ ⟨4, 0⟩ ⟨0, 3⟩| / 2) ∧
      ((triangleData (⟨0, 0⟩, ⟨4, 0⟩, ⟨0, 3⟩)).valid = true ∧
        ∃ g, (triangleData (⟨0, 0⟩, ⟨4, 0⟩, ⟨0, 3⟩)).angles = some g ∧
          (0 < g.A ∧ g.A < 180) ∧ (0 < g.B ∧ g.B < 180) ∧ (0 < g.C ∧ g.C < 180) ∧
          |g.A + g.B + g.C - 180| ≤ 1e-6) := by
  have h1 : ¬ coincident (⟨0, 0⟩ : Pt) ⟨4, 0⟩ ∧ ¬ coincident (⟨0, 0⟩ : Pt) ⟨0, 3⟩ ∧
      ¬ coincident (⟨4, 0⟩ : Pt) ⟨0, 3⟩ := by
    refine ⟨?_, ?_, ?_⟩ <;> simp only [coincident, EPS, not_and] <;> norm_num
  have h2 : EPS < |doubleSignedArea ⟨0, 0⟩ ⟨4, 0⟩ ⟨0, 3⟩| / 2 := by
    simp only [doubleSignedArea, EPS]
    norm_num
  exact ⟨⟨h1, h2⟩, c3_angle_bounds_and_sum _ _ _ h1 h2⟩

/-! ## C5 -/

/-- C5: every valid result's side lengths satisfy the strict triangle
inequality in all three pairings. -/
theorem c5_strict_triangle_inequality (P : Pt × Pt × Pt) (s : TriangleSides)
    (hs : (triangleData P).sides = some s) :
    s.a < s.b + s.c ∧ s.b < s.a + s.c ∧ s.c < s.a + s.b := by
  obtain ⟨A, B, C⟩ := P
  obtain ⟨h1, h2, hset⟩ := sides_inv hs
  have hdsa : doubleSignedArea A B C ≠ 0 := by
    intro h0
    rw [h0] at h2
    norm_num [EPS] at h2
  have hdsaBA : doubleSignedArea B A C ≠ 0 := by
    rw [dsa_swapAB]
    exact neg_ne_zero.2 hdsa
  have hdsaCA : doubleSignedArea C A B ≠ 0 := by
    rw [dsa_rotate]
    exact hdsa
  obtain ⟨hab, hac, hbc⟩ := dsa_ne_zero_distinct hdsa
  have da : 0 < distance B C := distance_pos hbc
  have db : 0 < distance A C := distance_pos hac
  have dc : 0 < distance A B := distance_pos hab
  obtain ⟨-, hApi⟩ := angle_pos_lt_pi hdsa
  obtain ⟨-, hBpi⟩ := angle_pos_lt_pi hdsaBA
  obtain ⟨-, hCpi⟩ := angle_pos_lt_pi hdsaCA
  have hcosA : -1 < Real.cos (EuclideanGeometry.angle (toE B) (toE A) (toE C)) := by
    have hmono := Real.strictAntiOn_cos
      (Set.mem_Icc.2 ⟨EuclideanGeometry.angle_nonneg _ _ _,
        EuclideanGeometry.angle_le_pi _ _ _⟩)
      (Set.mem_Icc.2 ⟨Real.pi_pos.le, le_refl _⟩) hApi
    rwa [Real.cos_pi] at hmono
  have hcosB : -1 < Real.cos (EuclideanGeometry.angle (toE A) (toE B) (toE C)) := by
    have hmono := Real.strictAntiOn_cos
      (Set.mem_Icc.2 ⟨EuclideanGeometry.angle_nonneg _ _ _,
        EuclideanGeometry.angle_le_pi _ _ _⟩)
      (Set.mem_Icc.2 ⟨Real.pi_pos.le, le_refl _⟩) hBpi
    rwa [Real.cos_pi] at hmono
  have hcosC : -1 < Real.cos (EuclideanGeometry.angle (toE A) (toE C) (toE B)) := by
    have hmono := Real.strictAntiOn_cos
      (Set.mem_Icc.2 ⟨EuclideanGeometry.angle_nonneg _ _ _,
        EuclideanGeometry.angle_le_pi _ _ _⟩)
      (Set.mem_Icc.2 ⟨Real.pi_pos.le, le_refl _⟩) hCpi
    rwa [Real.cos_pi] at hmono
  have hlawA := EuclideanGeometry.law_cos (toE B) (toE A) (toE C)
  rw [dist_toE, dist_toE, dist_toE, distance_comm B A, distance_comm C A] at hlawA
  have hlawB := EuclideanGeometry.law_cos (toE A) (toE B) (toE C)
  rw [dist_toE, dist_toE, dist_toE, distance_comm C B] at hlawB
  have hlawC := EuclideanGeometry.law_cos (toE A) (toE C) (toE B)
  rw [dist_toE, dist_toE, dist_toE] at hlawC
  subst hset
  refine ⟨?_, ?_, ?_⟩
  · show distance B C < distance A C + distance A B
    have hsq : distance B C ^ 2 < (distance A C + distance A B) ^ 2 := by
      nlinarith [hlawA, hcosA, mul_pos db dc]
    exact lt_of_pow_lt_pow_left₀ 2 (add_pos db dc).le hsq
  · show distance A C < distance B C + distance A B
    have hsq : distance A C ^ 2 < (distance B C + distance A B) ^ 2 := by
      nlinarith [hlawB, hcosB, mul_pos da dc]
    exact lt_of_pow_lt_pow_left₀ 2 (add_pos da dc).le hsq
  · show distance A B < distance B C + distance A C
    have hsq : distance A B ^ 2 < (distance B C + distance A C) ^ 2 := by
      nlinarith [hlawC, hcosC, mul_pos da db]
    exact lt_of_pow_lt_pow_left₀ 2 (add_pos da db).le hsq

/-- Witness for C5 at the 3-4-5 right triangle. -/
theorem c5_strict_triangle_inequality_witness :
    (triangleData (⟨0, 0⟩, ⟨4, 0⟩, ⟨0, 3⟩)).sides = some ⟨5, 3, 4⟩ ∧
      ((5 : ℝ) < 3 + 4 ∧ (3 : ℝ) < 5 + 4 ∧ (4 : ℝ) < 5 + 3) := by
  have hs : (triangleData (⟨0, 0⟩, ⟨4, 0⟩, ⟨0, 3⟩)).sides = some ⟨5, 3, 4⟩ := by
    rw [tri345]
  exact ⟨hs, c5_strict_triangle_inequality _ _ hs⟩

/-! ## Extended embedding with IEEE special values

`JsNum` models the full JavaScript `number` value space: finite doubles
(idealised as exact reals), the two infinities, and `NaN`.  The arithmetic
below follows the IEEE-754 / ECMAScript rules for special values: `NaN`
propagates through arithmetic, every comparison involving `NaN` is false,
`Math.hypot` returns `Infinity` whenever either argument is infinite (even if
the other is `NaN`), and `Math.acos` returns `NaN` outside `[-1, 1]`. -/

inductive JsNum where
  | fin : ℝ → JsNum
  | pinf : JsNum
  | ninf : JsNum
  | nan : JsNum

/-- JavaScript subtraction `x - y` on special values. -/
def jsSub : JsNum → JsNum → JsNum
  | .nan, _ => .nan
  | _, .nan => .nan
  | .fin x, .fin y => .fin (x - y)
  | .fin _, .pinf => .ninf
  | .fin _, .ninf => .pinf
  | .pinf, .fin _ => .pinf
  | .pinf, .pinf => .nan
  | .pinf, .ninf => .pinf
  | .ninf, .fin _ => .ninf
  | .ninf, .pinf => .ninf
  | .ninf, .ninf => .nan

/-- JavaScript addition `x + y` on special values. -/
def jsAdd : JsNum → JsNum → JsNum
  | .nan, _ => .nan
  | _, .nan => .nan
  | .fin x, .fin y => .fin (x + y)
  | .fin _, .pinf => .pinf
  | .fin _, .ninf => .ninf
  | .pinf, .fin _ => .pinf
  | .pinf, .pinf => .pinf
  | .pinf, .ninf => .nan
  | .ninf, .fin _ => .ninf
  | .ninf, .pinf => .nan
  | .ninf, .ninf => .ninf

open scoped Classical in
/-- JavaScript multiplication `x * y` on special values
(`±Infinity * 0` is `NaN`). -/
noncomputable def jsMul : JsNum → JsNum → JsNum
  | .nan, _ => .nan
  | _, .nan => .nan
  | .fin x, .fin y => .fin (x * y)
  | .fin x, .pinf => if 0 < x then .pinf else if x < 0 then .ninf else .nan
  | .fin x, .ninf => if 0 < x then .ninf else if x < 0 then .pinf else .nan
  | .pinf, .fin y => if 0 < y then .pinf else if y < 0 then .ninf else .nan
  | .ninf, .fin y => if 0 < y then .ninf else if y < 0 then .pinf else .nan
  | .pinf, .pinf => .pinf
  | .pinf, .ninf => .ninf
  | .ninf, .pinf => .ninf
  | .ninf, .ninf => .pinf

open scoped Classical in
/-- JavaScript division `x / y` on special values (signed zero is not
modelled: division by `0` takes the sign of the dividend). -/
noncomputable def jsDiv : JsNum → JsNum → JsNum
  | .nan, _ => .nan
  | _, .nan => .nan
  | .fin x, .fin y =>
      if y = 0 then (if 0 < x then .pinf else if x < 0 then .ninf else .nan)
      else .fin (x / y)
  | .fin _, .pinf => .fin 0
  | .fin _, .ninf => .fin 0
  | .pinf, .fin y => if y < 0 then .ninf else .pinf
  | .ninf, .fin y => if y < 0 then .pinf else .ninf
  | .pinf, .pinf => .nan
  | .pinf, .ninf => .nan
  | .ninf, .pinf => .nan
  | .ninf, .ninf => .nan

/-- JavaScript `Math.abs`. -/
def jsAbs : JsNum → JsNum
  | .nan => .nan
  | .fin x => .fin |x|
  | .pinf => .pinf
  | .ninf => .pinf

/-- JavaScript `<` — false whenever `NaN` is involved. -/
def jsLt : JsNum → JsNum → Prop
  | .nan, _ => False
  | _, .nan => False
  | .fin x, .fin y => x < y
  | .fin _, .pinf => True
  | .fin _, .ninf => False
  | .pinf, .fin _ => False
  | .pinf, .pinf => False
  | .pinf, .ninf => False
  | .ninf, .fin _ => True
  | .ninf, .pinf => True
  | .ninf, .ninf => False

/-- JavaScript `<=` — false whenever `NaN` is involved. -/
def jsLe : JsNum → JsNum → Prop
  | .nan, _ => False
  | _, .nan => False
  | .fin x, .fin y => x ≤ y
  | .fin _, .pinf => True
  | .fin _, .ninf => False
  | .pinf, .fin _ => False
  | .pinf, .pinf => True
  | .pinf, .ninf => False
  | .ninf, .fin _ => True
  | .ninf, .pinf => True
  | .ninf, .ninf => True

/-- JavaScript `Math.max` of two values (`NaN` if either is `NaN`). -/
def jsMax : JsNum → JsNum → JsNum
  | .nan, _ => .nan
  | _, .nan => .nan
  | .fin x, .fin y => .fin (max x y)
  | .pinf, _ => .pinf
  | _, .pinf => .pinf
  | .ninf, y => y
  | x, .ninf => x

/-- JavaScript `Math.min` of two values (`NaN` if either is `NaN`). -/
def jsMin : JsNum → JsNum → JsNum
  | .nan, _ => .nan
  | _, .nan => .nan
  | .fin x, .fin y => .fin (min x y)
  | .ninf, _ => .ninf
  | _, .ninf => .ninf
  | .pinf, y => y
  | x, .pinf => x

/-- JavaScript `Math.hypot x y`: `Infinity` whenever either argument is
infinite (even if the other is `NaN`), otherwise `NaN`-propagating. -/
noncomputable def jsHypot : JsNum → JsNum → JsNum
  | .pinf, _ => .pinf
  | .ninf, _ => .pinf
  | _, .pinf => .pinf
  | _, .ninf => .pinf
  | .nan, _ => .nan
  | _, .nan => .nan
  | .fin x, .fin y => .fin (Real.sqrt (x ^ 2 + y ^ 2))

open scoped Classical in
/-- JavaScript `Math.acos`: defined on `[-1, 1]`, `NaN` elsewhere. -/
noncomputable def jsAcos : JsNum → JsNum
  | .fin x => if -1 ≤ x ∧ x ≤ 1 then .fin (Real.arccos x) else .nan
  | _ => .nan

/-- JavaScript global `isFinite` on numbers. -/
def jsIsFinite : JsNum → Prop
  | .fin _ => True
  | _ => False

/-- A 2D point with full JavaScript-number coordinates. -/
structure PtE where
  x : JsNum
  y : JsNum

structure TriangleSidesE where
  a : JsNum
  b : JsNum
  c : JsNum

structure TriangleAnglesE where
  A : JsNum
  B : JsNum
  C : JsNum

structure MidsE where
  a : PtE
  b : PtE
  c : PtE

/-- The `TriangleData` record over full JavaScript numbers. -/
structure TriangleDataE where
  valid : Bool
  reasonIfInvalid : Option String := none
  sides : Option TriangleSidesE := none
  angles : Option TriangleAnglesE := none
  perimeter : Option JsNum := none
  area : Option JsNum := none
  mids : Option MidsE := none

/-- The constant `EPS` as a JavaScript number. -/
def epsE : JsNum := .fin EPS

/-- The source's `clamp` over JavaScript numbers. -/
def clampE (v lo hi : JsNum) : JsNum := jsMax lo (jsMin hi v)

/-- The source's `distance` over JavaScript numbers (`Math.hypot(q.x - p.x, q.y - p.y)`). -/
noncomputable def distanceE (p q : PtE) : JsNum :=
  jsHypot (jsSub q.x p.x) (jsSub q.y p.y)

/-- The source's `toDeg` over JavaScript numbers. -/
noncomputable def toDegE (rad : JsNum) : JsNum :=
  jsDiv (jsMul rad (.fin 180)) (.fin Real.pi)

/-- The source's `doubleSignedArea` over JavaScript numbers. -/
noncomputable def doubleSignedAreaE (A B C : PtE) : JsNum :=
  jsAdd (jsAdd (jsMul A.x (jsSub B.y C.y)) (jsMul B.x (jsSub C.y A.y)))
    (jsMul C.x (jsSub A.y B.y))

/-- The source's `midpoint` over JavaScript numbers. -/
noncomputable def midpointE (P Q : PtE) : PtE :=
  { x := jsDiv (jsAdd P.x Q.x) (.fin 2), y := jsDiv (jsAdd P.y Q.y) (.fin 2) }

/-- The coincidence test of `triangleData` over JavaScript numbers. -/
def coincidentE (p q : PtE) : Prop :=
  jsLt (jsAbs (jsSub p.x q.x)) epsE ∧ jsLt (jsAbs (jsSub p.y q.y)) epsE

open scoped Classical in
/-- The source's `triangleData` over full JavaScript numbers, translated branch for branch
from the source exactly as `triangleData` above. -/
noncomputable def triangleDataE (points : PtE × PtE × PtE) : TriangleDataE :=
  let A := points.1
  let B := points.2.1
  let C := points.2.2
  if coincidentE A B ∨ coincidentE A C ∨ coincidentE B C then
    { valid := false, reasonIfInvalid := some "Two or more points coincide." }
  else
    let a := distanceE B C
    let b := distanceE A C
    let c := distanceE A B
    if ¬ jsIsFinite a ∨ ¬ jsIsFinite b ∨ ¬ jsIsFinite c then
      { valid := false, reasonIfInvalid := some "Non-finite side length detected." }
    else
      let area2 := jsDiv (jsAbs (doubleSignedAreaE A B C)) (.fin 2)
      if jsLe area2 epsE then
        { valid := false, reasonIfInvalid := some "Degenerate (collinear) triangle." }
      else
        let cosA := clampE (jsDiv (jsSub (jsAdd (jsMul b b) (jsMul c c)) (jsMul a a))
          (jsMul (jsMul (.fin 2) b) c)) (.fin (-1)) (.fin 1)
        let cosB := clampE (jsDiv (jsSub (jsAdd (jsMul a a) (jsMul c c)) (jsMul b b))
          (jsMul (jsMul (.fin 2) a) c)) (.fin (-1)) (.fin 1)
        let cosC := clampE (jsDiv (jsSub (jsAdd (jsMul a a) (jsMul b b)) (jsMul c c))
          (jsMul (jsMul (.fin 2) a) b)) (.fin (-1)) (.fin 1)
        let Adeg := toDegE (jsAcos cosA)
        let Bdeg := toDegE (jsAcos cosB)
        let Cdeg := toDegE (jsAcos cosC)
        let perimeter := jsAdd (jsAdd a b) c
        let mids : MidsE := { a := midpointE B C, b := midpointE A C, c := midpointE A B }
        { valid := true,
          sides := some { a := a, b := b, c := c },
          angles := some { A := Adeg, B := Bdeg, C := Cdeg },
          perimeter := some perimeter,
          area := some area2,
          mids := some mids }

/-! ### Branch lemmas for `triangleDataE` -/

lemma triangleDataE_coincident {A B C : PtE}
    (h : coincidentE A B ∨ coincidentE A C ∨ coincidentE B C) :
    triangleDataE (A, B, C) =
      { valid := false, reasonIfInvalid := some "Two or more points coincide." } := by
  simp only [triangleDataE]
  rw [if_pos h]

lemma triangleDataE_nonfinite {A B C : PtE}
    (h1 : ¬ (coincidentE A B ∨ coincidentE A C ∨ coincidentE B C))
    (h2 : ¬ jsIsFinite (distanceE B C) ∨ ¬ jsIsFinite (distanceE A C) ∨
      ¬ jsIsFinite (distanceE A B)) :
    triangleDataE (A, B, C) =
      { valid := false, reasonIfInvalid := some "Non-finite side length detected." } := by
  simp only [triangleDataE]
  rw [if_neg h1, if_pos h2]

lemma triangleDataE_degenerate {A B C : PtE}
    (h1 : ¬ (coincidentE A B ∨ coincidentE A C ∨ coincidentE B C))
    (h2 : ¬ (¬ jsIsFinite (distanceE B C) ∨ ¬ jsIsFinite (distanceE A C) ∨
      ¬ jsIsFinite (distanceE A B)))
    (h3 : jsLe (jsDiv (jsAbs (doubleSignedAreaE A B C)) (.fin 2)) epsE) :
    triangleDataE (A, B, C) =
      { valid := false, reasonIfInvalid := some "Degenerate (collinear) triangle." } := by
  simp only [triangleDataE]
  rw [if_neg h1, if_neg h2, if_pos h3]

lemma triangleDataE_valid_fields {A B C : PtE}
    (h1 : ¬ (coincidentE A B ∨ coincidentE A C ∨ coincidentE B C))
    (h2 : ¬ (¬ jsIsFinite (distanceE B C) ∨ ¬ jsIsFinite (distanceE A C) ∨
      ¬ jsIsFinite (distanceE A B)))
    (h3 : ¬ jsLe (jsDiv (jsAbs (doubleSignedAreaE A B C)) (.fin 2)) epsE) :
    (triangleDataE (A, B, C)).valid = true ∧
      (triangleDataE (A, B, C)).reasonIfInvalid = none := by
  simp only [triangleDataE]
  rw [if_neg h1, if_neg h2, if_neg h3]
  exact ⟨rfl, rfl⟩

/-! ### Non-finite propagation lemmas -/

lemma jsIsFinite_sub {x y : JsNum} (h : ¬ jsIsFinite x ∨ ¬ jsIsFinite y) :
    ¬ jsIsFinite (jsSub x y) := by
  cases x <;> cases y <;> simp_all [jsIsFinite, jsSub]

lemma jsIsFinite_hypot {x y : JsNum} (h : ¬ jsIsFinite x ∨ ¬ jsIsFinite y) :
    ¬ jsIsFinite (jsHypot x y) := by
  cases x <;> cases y <;> simp_all [jsIsFinite, jsHypot]

lemma distanceE_nonfinite {p q : PtE}
    (h : ¬ jsIsFinite p.x ∨ ¬ jsIsFinite p.y ∨ ¬ jsIsFinite q.x ∨ ¬ jsIsFinite q.y) :
    ¬ jsIsFinite (distanceE p q) := by
  unfold distanceE
  rcases h with h | h | h | h
  · exact jsIsFinite_hypot (Or.inl (jsIsFinite_sub (Or.inr h)))
  · exact jsIsFinite_hypot (Or.inr (jsIsFinite_sub (Or.inr h)))
  · exact jsIsFinite_hypot (Or.inl (jsIsFinite_sub (Or.inl h)))
  · exact jsIsFinite_hypot (Or.inr (jsIsFinite_sub (Or.inl h)))

/-- A point with a `NaN` coordinate never passes the coincidence test against
any other point: every comparison involving `NaN` is false. -/
lemma nan_not_coincidentE {p q : PtE} (h : p.x = JsNum.nan ∨ p.y = JsNum.nan) :
    ¬ coincidentE p q := by
  unfold coincidentE
  rcases h with h | h <;> rw [h] <;> intro hc
  · have hx := hc.1
    simp [jsSub, jsAbs, jsLt, epsE] at hx
  · have hy := hc.2
    simp [jsSub, jsAbs, jsLt, epsE] at hy

/-- Shared evaluation: the coincidence test at the origin-duplicated input. -/
lemma coincE_origin : coincidentE ⟨.fin 0, .fin 0⟩ ⟨.fin 0, .fin 0⟩ := by
  constructor <;> norm_num [jsSub, jsAbs, jsLt, epsE, EPS]

/-- Shared evaluation of `triangleDataE` on `A=B=(0,0)`, `C=(1,1)`. -/
lemma triE_coinc_eval :
    triangleDataE (⟨.fin 0, .fin 0⟩, ⟨.fin 0, .fin 0⟩, ⟨.fin 1, .fin 1⟩) =
      { valid := false, reasonIfInvalid := some "Two or more points coincide." } :=
  triangleDataE_coincident (Or.inl coincE_origin)

/-! ## C2 -/

/-- C2: the three invalid classifications are evaluated in the fixed order
coincidence → side-length finiteness → area degeneracy; the first test that
fires determines the reported reason; and the function is total on all
JavaScript numbers — every input yields a returned classified result (valid,
or invalid with a reason), never a thrown error. -/
theorem c2_check_order_and_totality (A B C : PtE) :
    ((coincidentE A B ∨ coincidentE A C ∨ coincidentE B C) →
        triangleDataE (A, B, C) =
          { valid := false, reasonIfInvalid := some "Two or more points coincide." }) ∧
      (¬ (coincidentE A B ∨ coincidentE A C ∨ coincidentE B C) →
        (¬ jsIsFinite (distanceE B C) ∨ ¬ jsIsFinite (distanceE A C) ∨
            ¬ jsIsFinite (distanceE A B)) →
        triangleDataE (A, B, C) =
          { valid := false, reasonIfInvalid := some "Non-finite side length detected." }) ∧
      (¬ (coincidentE A B ∨ coincidentE A C ∨ coincidentE B C) →
        ¬ (¬ jsIsFinite (distanceE B C) ∨ ¬ jsIsFinite (distanceE A C) ∨
            ¬ jsIsFinite (distanceE A B)) →
        jsLe (jsDiv (jsAbs (doubleSignedAreaE A B C)) (.fin 2)) epsE →
        triangleDataE (A, B, C) =
          { valid := false, reasonIfInvalid := some "Degenerate (collinear) triangle." }) ∧
      ((triangleDataE (A, B, C)).valid = true ∨
        ∃ r, (triangleDataE (A, B, C)).valid = false ∧
          (triangleDataE (A, B, C)).reasonIfInvalid = some r) := by
  refine ⟨triangleDataE_coincident, triangleDataE_nonfinite, triangleDataE_degenerate, ?_⟩
  by_cases h1 : coincidentE A B ∨ coincidentE A C ∨ coincidentE B C
  · refine Or.inr ⟨"Two or more points coincide.", ?_⟩
    rw [triangleDataE_coincident h1]
    exact ⟨rfl, rfl⟩
  · by_cases h2 : ¬ jsIsFinite (distanceE B C) ∨ ¬ jsIsFinite (distanceE A C) ∨
      ¬ jsIsFinite (distanceE A B)
    · refine Or.inr ⟨"Non-finite side length detected.", ?_⟩
      rw [triangleDataE_nonfinite h1 h2]
      exact ⟨rfl, rfl⟩
    · by_cases h3 : jsLe (jsDiv (jsAbs (doubleSignedAreaE A B C)) (.fin 2)) epsE
      · refine Or.inr ⟨"Degenerate (collinear) triangle.", ?_⟩
        rw [triangleDataE_degenerate h1 h2 h3]
        exact ⟨rfl, rfl⟩
      · exact Or.inl (triangleDataE_valid_fields h1 h2 h3).1

/-- Witness for C2: the first (coincidence) branch fires on `A=B=(0,0)`,
`C=(1,1)` and fixes the reason. -/
theorem c2_check_order_and_totality_witness :
    (coincidentE (⟨.fin 0, .fin 0⟩ : PtE) ⟨.fin 0, .fin 0⟩ ∨
        coincidentE (⟨.fin 0, .fin 0⟩ : PtE) ⟨.fin 1, .fin 1⟩ ∨
        coincidentE (⟨.fin 0, .fin 0⟩ : PtE) ⟨.fin 1, .fin 1⟩) ∧
      triangleDataE (⟨.fin 0, .fin 0⟩, ⟨.fin 0, .fin 0⟩, ⟨.fin 1, .fin 1⟩) =
        { valid := false, reasonIfInvalid := some "Two or more points coincide." } :=
  ⟨Or.inl coincE_origin,
    (c2_check_order_and_totality ⟨.fin 0, .fin 0⟩ ⟨.fin 0, .fin 0⟩ ⟨.fin 1, .fin 1⟩).1
      (Or.inl coincE_origin)⟩

/-! ## C4 -/

/-- C4 counterexample: on `A=B=(0,0)`, `C=(1,1)` the result is invalid, but the
reason string is the source's `"Two or more points coincide."` — none of the
three strings `"coincident points"`, `"non-finite side length"`,
`"degenerate/collinear"` named by the claim. -/
theorem c4_reason_strings_counterexample :
    (triangleDataE (⟨.fin 0, .fin 0⟩, ⟨.fin 0, .fin 0⟩, ⟨.fin 1, .fin 1⟩)).valid = false ∧
      (triangleDataE (⟨.fin 0, .fin 0⟩, ⟨.fin 0, .fin 0⟩,
          ⟨.fin 1, .fin 1⟩)).reasonIfInvalid = some "Two or more points coincide." ∧
      ¬ ((triangleDataE (⟨.fin 0, .fin 0⟩, ⟨.fin 0, .fin 0⟩,
            ⟨.fin 1, .fin 1⟩)).reasonIfInvalid = some "coincident points" ∨
          (triangleDataE (⟨.fin 0, .fin 0⟩, ⟨.fin 0, .fin 0⟩,
            ⟨.fin 1, .fin 1⟩)).reasonIfInvalid = some "non-finite side length" ∨
          (triangleDataE (⟨.fin 0, .fin 0⟩, ⟨.fin 0, .fin 0⟩,
            ⟨.fin 1, .fin 1⟩)).reasonIfInvalid = some "degenerate/collinear") := by
  rw [triE_coinc_eval]
  refine ⟨rfl, rfl, ?_⟩
  simp

/-- C4 (amended): the reason string carried by an invalid result is exactly
one of the three strings of the source: `"Two or more points coincide."`,
`"Non-finite side length detected."`, `"Degenerate (collinear) triangle."`. -/
theorem c4_reason_strings_amended (P : PtE × PtE × PtE) (r : String)
    (h : (triangleDataE P).reasonIfInvalid = some r) :
    r = "Two or more points coincide." ∨ r = "Non-finite side length detected." ∨
      r = "Degenerate (collinear) triangle." := by
  obtain ⟨A, B, C⟩ := P
  by_cases h1 : coincidentE A B ∨ coincidentE A C ∨ coincidentE B C
  · rw [triangleDataE_coincident h1] at h
    simp only [Option.some.injEq] at h
    exact Or.inl h.symm
  · by_cases h2 : ¬ jsIsFinite (distanceE B C) ∨ ¬ jsIsFinite (distanceE A C) ∨
      ¬ jsIsFinite (distanceE A B)
    · rw [triangleDataE_nonfinite h1 h2] at h
      simp only [Option.some.injEq] at h
      exact Or.inr (Or.inl h.symm)
    · by_cases h3 : jsLe (jsDiv (jsAbs (doubleSignedAreaE A B C)) (.fin 2)) epsE
      · rw [triangleDataE_degenerate h1 h2 h3] at h
        simp only [Option.some.injEq] at h
        exact Or.inr (Or.inr h.symm)
      · rw [(triangleDataE_valid_fields h1 h2 h3).2] at h
        simp at h

/-- Witness for the amended C4 at the coincident input. -/
theorem c4_reason_strings_amended_witness :
    (triangleDataE (⟨.fin 0, .fin 0⟩, ⟨.fin 0, .fin 0⟩,
        ⟨.fin 1, .fin 1⟩)).reasonIfInvalid = some "Two or more points coincide." ∧
      ("Two or more points coincide." = "Two or more points coincide." ∨
        "Two or more points coincide." = "Non-finite side length detected." ∨
        "Two or more points coincide." = "Degenerate (collinear) triangle.") := by
  have h : (triangleDataE (⟨.fin 0, .fin 0⟩, ⟨.fin 0, .fin 0⟩,
      ⟨.fin 1, .fin 1⟩)).reasonIfInvalid = some "Two or more points coincide." := by
    rw [triE_coinc_eval]
  exact ⟨h, c4_reason_strings_amended _ _ h⟩

/-! ## C10 -/

/-- C10: whenever at least one coordinate is `NaN` or infinite and no pair of
points passes the coincidence test, `triangleDataE` returns the invalid result
with the non-finite-side-length reason; moreover a point with a `NaN`
coordinate never passes the coincidence test against any point, because
comparisons involving `NaN` are false. -/
theorem c10_nonfinite_classification (A B C : PtE)
    (hnf : ¬ jsIsFinite A.x ∨ ¬ jsIsFinite A.y ∨ ¬ jsIsFinite B.x ∨ ¬ jsIsFinite B.y ∨
      ¬ jsIsFinite C.x ∨ ¬ jsIsFinite C.y)
    (hco : ¬ (coincidentE A B ∨ coincidentE A C ∨ coincidentE B C)) :
    triangleDataE (A, B, C) =
        { valid := false, reasonIfInvalid := some "Non-finite side length detected." } ∧
      ∀ p q : PtE, (p.x = JsNum.nan ∨ p.y = JsNum.nan) → ¬ coincidentE p q := by
  refine ⟨?_, fun p q h => nan_not_coincidentE h⟩
  apply triangleDataE_nonfinite hco
  rcases hnf with h | h | h | h | h | h
  · exact Or.inr (Or.inl (distanceE_nonfinite (Or.inl h)))
  · exact Or.inr (Or.inl (distanceE_nonfinite (Or.inr (Or.inl h))))
  · exact Or.inl (distanceE_nonfinite (Or.inl h))
  · exact Or.inl (distanceE_nonfinite (Or.inr (Or.inl h)))
  · exact Or.inl (distanceE_nonfinite (Or.inr (Or.inr (Or.inl h))))
  · exact Or.inl (distanceE_nonfinite (Or.inr (Or.inr (Or.inr h))))

/-- Witness for C10 at `A=(NaN,0)`, `B=(0,0)`, `C=(1,1)`. -/
theorem c10_nonfinite_classification_witness :
    (¬ jsIsFinite JsNum.nan ∨ ¬ jsIsFinite (JsNum.fin 0) ∨ ¬ jsIsFinite (JsNum.fin 0) ∨
        ¬ jsIsFinite (JsNum.fin 0) ∨ ¬ jsIsFinite (JsNum.fin 1) ∨
        ¬ jsIsFinite (JsNum.fin 1)) ∧
      ¬ (coincidentE ⟨.nan, .fin 0⟩ ⟨.fin 0, .fin 0⟩ ∨
          coincidentE ⟨.nan, .fin 0⟩ ⟨.fin 1, .fin 1⟩ ∨
          coincidentE ⟨.fin 0, .fin 0⟩ ⟨.fin 1, .fin 1⟩) ∧
      (triangleDataE (⟨.nan, .fin 0⟩, ⟨.fin 0, .fin 0⟩, ⟨.fin 1, .fin 1⟩) =
          { valid := false, reasonIfInvalid := some "Non-finite side length detected." } ∧
        ∀ p q : PtE, (p.x = JsNum.nan ∨ p.y = JsNum.nan) → ¬ coincidentE p q) := by
  have hnf : ¬ jsIsFinite JsNum.nan ∨ ¬ jsIsFinite (JsNum.fin 0) ∨
      ¬ jsIsFinite (JsNum.fin 0) ∨ ¬ jsIsFinite (JsNum.fin 0) ∨
      ¬ jsIsFinite (JsNum.fin 1) ∨ ¬ jsIsFinite (JsNum.fin 1) :=
    Or.inl (by simp [jsIsFinite])
  have hco : ¬ (coincidentE ⟨.nan, .fin 0⟩ ⟨.fin 0, .fin 0⟩ ∨
      coincidentE ⟨.nan, .fin 0⟩ ⟨.fin 1, .fin 1⟩ ∨
      coincidentE ⟨.fin 0, .fin 0⟩ ⟨.fin 1, .fin 1⟩) := by
    rintro (hc | hc | hc)
    · exact nan_not_coincidentE (Or.inl rfl) hc
    · exact nan_not_coincidentE (Or.inl rfl) hc
    · have hx := hc.1
      norm_num [jsSub, jsAbs, jsLt, epsE, EPS] at hx
  exact ⟨hnf, hco, c10_nonfinite_classification _ _ _ hnf hco⟩

end Geometry
